import Mathlib

/-!
# Verification of the `otto` crawling pipeline core

A shallow embedding, in Lean 4, of the Page Fetcher and Crawler Scheduler
components of the `otto` repository, together with theorems settling the
behavioural claims made by the design specification.

Conventions of the embedding:

* Python floats used for durations and backoffs are modelled as exact
  rationals (`ℚ`); the code only multiplies, divides, exponentiates and
  compares them, so rationals are a faithful carrier.
* Byte strings are `List Nat` with every element `< 256`.
* External effects (cache writes, queue pushes, Kafka sends, sleeps) are
  recorded in explicit effect records returned next to each result.
* HTTP, Redis, Kafka and the stdlib robots parser are external
  collaborators: their responses enter the model as parameters.
-/

namespace Otto

/-! ## SHA-256 (`hashlib.sha256`), as used by `fetcher.py`

`fetcher.py` derives the cache key from `sha256(url).hexdigest()`, the
Kafka message key from `sha256(url).digest()`, and the content hash from
`sha256(body).hexdigest()`.  We embed the full FIPS-180-4 algorithm over
byte lists. -/

/-- Truncation to a 32-bit word. -/
def w32 (x : Nat) : Nat := x % 4294967296

/-- Logical right shift on 32-bit words. -/
def shr32 (n x : Nat) : Nat := x / 2 ^ n

/-- Right rotation on 32-bit words. -/
def rotr32 (n x : Nat) : Nat := (x / 2 ^ n) + (x % 2 ^ n) * 2 ^ (32 - n)

/-- Bitwise complement on 32-bit words. -/
def not32 (x : Nat) : Nat := 4294967295 ^^^ x

/-- Big-endian bytes of a number, `k` bytes wide. -/
def toBytesBE (k n : Nat) : List Nat :=
  (List.range k).reverse.map fun i => n / 2 ^ (8 * i) % 256

/-- Big-endian word from a byte list. -/
def bytesToWord (bs : List Nat) : Nat := bs.foldl (fun a b => a * 256 + b) 0

/-- The 64 SHA-256 round constants (FIPS 180-4 §4.2.2), in decimal. -/
def sha256K : List Nat :=
  [1116352408, 1899447441, 3049323471, 3921009573, 961987163,
   1508970993, 2453635748, 2870763221, 3624381080, 310598401,
   607225278, 1426881987, 1925078388, 2162078206, 2614888103,
   3248222580, 3835390401, 4022224774, 264347078, 604807628,
   770255983, 1249150122, 1555081692, 1996064986, 2554220882,
   2821834349, 2952996808, 3210313671, 3336571891, 3584528711,
   113926993, 338241895, 666307205, 773529912, 1294757372,
   1396182291, 1695183700, 1986661051, 2177026350, 2456956037,
   2730485921, 2820302411, 3259730800, 3345764771, 3516065817,
   3600352804, 4094571909, 275423344, 430227734, 506948616,
   659060556, 883997877, 958139571, 1322822218, 1537002063,
   1747873779, 1955562222, 2024104815, 2227730452, 2361852424,
   2428436474, 2756734187, 3204031479, 3329325298]

/-- The SHA-256 working state: eight 32-bit words. -/
structure Sha256State where
  a : Nat
  b : Nat
  c : Nat
  d : Nat
  e : Nat
  f : Nat
  g : Nat
  h : Nat

/-- The SHA-256 initial hash value (FIPS 180-4 §5.3.3), in decimal. -/
def sha256Init : Sha256State :=
  ⟨1779033703, 3144134277, 1013904242, 2773480762,
   1359893119, 2600822924, 528734635, 1541459225⟩

/-- σ₀ of the message schedule. -/
def ssig0 (x : Nat) : Nat := rotr32 7 x ^^^ rotr32 18 x ^^^ shr32 3 x

/-- σ₁ of the message schedule. -/
def ssig1 (x : Nat) : Nat := rotr32 17 x ^^^ rotr32 19 x ^^^ shr32 10 x

/-- Σ₀ of the compression function. -/
def bsig0 (x : Nat) : Nat := rotr32 2 x ^^^ rotr32 13 x ^^^ rotr32 22 x

/-- Σ₁ of the compression function. -/
def bsig1 (x : Nat) : Nat := rotr32 6 x ^^^ rotr32 11 x ^^^ rotr32 25 x

/-- One SHA-256 compression round. -/
def sha256Round (st : Sha256State) (kw : Nat × Nat) : Sha256State :=
  let t1 := w32 (st.h + bsig1 st.e + ((st.e &&& st.f) ^^^ (not32 st.e &&& st.g))
      + kw.1 + kw.2)
  let t2 := w32 (bsig0 st.a + ((st.a &&& st.b) ^^^ (st.a &&& st.c) ^^^ (st.b &&& st.c)))
  ⟨w32 (t1 + t2), st.a, st.b, st.c, w32 (st.d + t1), st.e, st.f, st.g⟩

/-- Extend the 16 block words to the 64 schedule words. -/
def extendW : Nat → List Nat → List Nat
  | 0, ws => ws
  | fuel + 1, ws =>
    let n := ws.length
    let next := w32 (ssig1 (ws.getD (n - 2) 0) + ws.getD (n - 7) 0
        + ssig0 (ws.getD (n - 15) 0) + ws.getD (n - 16) 0)
    extendW fuel (ws ++ [next])

/-- The 16 big-endian words of a 64-byte block. -/
def blockWords (block : List Nat) : List Nat :=
  (List.range 16).map fun i => bytesToWord ((block.drop (4 * i)).take 4)

/-- Compress one 64-byte block into the running hash state. -/
def sha256Compress (H : Sha256State) (block : List Nat) : Sha256State :=
  let ws := extendW 48 (blockWords block)
  let st := (sha256K.zip ws).foldl sha256Round H
  ⟨w32 (H.a + st.a), w32 (H.b + st.b), w32 (H.c + st.c), w32 (H.d + st.d),
   w32 (H.e + st.e), w32 (H.f + st.f), w32 (H.g + st.g), w32 (H.h + st.h)⟩

/-- SHA-256 padding: `0x80`, zeros to 56 mod 64, then the 64-bit bit length. -/
def sha256Pad (msg : List Nat) : List Nat :=
  let l := msg.length
  msg ++ [128] ++ List.replicate ((64 - (l + 9) % 64) % 64) 0 ++ toBytesBE 8 (8 * l)

/-- Split a byte list into its 64-byte blocks (length assumed divisible). -/
def chunks64 : Nat → List Nat → List (List Nat)
  | 0, _ => []
  | n + 1, l => l.take 64 :: chunks64 n (l.drop 64)

/-- The SHA-256 digest of a byte list: 32 raw digest bytes. -/
def sha256 (msg : List Nat) : List Nat :=
  let padded := sha256Pad msg
  let final := (chunks64 (padded.length / 64) padded).foldl sha256Compress sha256Init
  toBytesBE 4 final.a ++ toBytesBE 4 final.b ++ toBytesBE 4 final.c ++
    toBytesBE 4 final.d ++ toBytesBE 4 final.e ++ toBytesBE 4 final.f ++
    toBytesBE 4 final.g ++ toBytesBE 4 final.h

/-- A lowercase hex digit character, for `0 ≤ n < 16`. -/
def hexDigitChar (n : Nat) : Char :=
  if n < 10 then Char.ofNat (48 + n) else Char.ofNat (87 + n)

/-- The two lowercase hex characters of one byte. -/
def byteHex (b : Nat) : List Char := [hexDigitChar (b / 16), hexDigitChar (b % 16)]

/-- `hashlib.sha256(msg).hexdigest()`: lowercase hex of the 32 digest bytes. -/
def sha256Hex (msg : List Nat) : String := ⟨(sha256 msg).flatMap byteHex⟩

/-- UTF-8 bytes of a string, as Python's `str.encode("utf-8")`. -/
def utf8Bytes (s : String) : List Nat := s.toUTF8.toList.map fun b => b.toNat

/-! ### Structural facts about the digest -/

/-- `toBytesBE k` always returns `k` bytes. -/
theorem toBytesBE_length (k n : Nat) : (toBytesBE k n).length = k := by
  simp [toBytesBE]

/-- Every entry of `toBytesBE` is a byte. -/
theorem toBytesBE_lt (k n : Nat) : ∀ b ∈ toBytesBE k n, b < 256 := by
  intro b hb
  simp only [toBytesBE, List.mem_map] at hb
  obtain ⟨i, _, rfl⟩ := hb
  exact Nat.mod_lt _ (by norm_num)

/-- A SHA-256 digest is exactly 32 bytes. -/
theorem sha256_length (msg : List Nat) : (sha256 msg).length = 32 := by
  simp [sha256, toBytesBE_length]

/-- Every entry of a SHA-256 digest is a byte. -/
theorem sha256_bytes_lt (msg : List Nat) : ∀ b ∈ sha256 msg, b < 256 := by
  intro b hb
  simp only [sha256, List.mem_append] at hb
  rcases hb with ((((((h | h) | h) | h) | h) | h) | h) | h <;>
    exact toBytesBE_lt _ _ _ h

/-- Hex digits of values below 16 are lowercase hex characters. -/
theorem hexDigitChar_mem (n : Nat) (h : n < 16) :
    hexDigitChar n ∈ "0123456789abcdef".toList := by
  interval_cases n <;> decide

/-- A hexdigest has 64 characters. -/
theorem sha256Hex_length (msg : List Nat) : (sha256Hex msg).length = 64 := by
  have hlen : ((sha256 msg).flatMap byteHex).length = 64 := by
    rw [List.length_flatMap]
    have key : ∀ l : List Nat, (l.map (List.length ∘ byteHex)).sum = 2 * l.length := by
      intro l
      induction l with
      | nil => simp
      | cons x xs ih => simp [byteHex, ih] at ih ⊢; omega
    rw [key, sha256_length]
  simpa [sha256Hex, String.length] using hlen

/-- Every character of a hexdigest is a lowercase hex character. -/
theorem sha256Hex_chars (msg : List Nat) :
    ∀ c ∈ (sha256Hex msg).toList, c ∈ "0123456789abcdef".toList := by
  intro c hc
  have hc' : c ∈ (sha256 msg).flatMap byteHex := by
    simpa [sha256Hex] using hc
  rw [List.mem_flatMap] at hc'
  obtain ⟨b, hb, hcb⟩ := hc'
  have hblt : b < 256 := sha256_bytes_lt msg b hb
  have h1 : b / 16 < 16 := Nat.div_lt_of_lt_mul (by omega)
  have h2 : b % 16 < 16 := Nat.mod_lt _ (by norm_num)
  simp only [byteHex, List.mem_cons, List.not_mem_nil, or_false] at hcb
  rcases hcb with rfl | rfl
  · exact hexDigitChar_mem _ h1
  · exact hexDigitChar_mem _ h2

/-! ## Data models (`models.py`) -/

/-- `WebpageEvent`: the record published to Kafka on a successful fetch.
`fetched_at` (a wall-clock timestamp) is drawn from the ambient clock,
modelled as the `now` parameter of `do_fetch`.  JSON serialization of the
event (pydantic `model_dump_json`) is external; the event sink records the
event value itself next to the raw message key. -/
structure WebpageEvent where
  url : String
  cacheKey : String
  statusCode : Nat
  contentType : Option String
  contentLength : Nat
  contentHash : String
  fetchedAt : ℚ
  deriving DecidableEq, Repr

/-- `ProcessResult`: the tagged union of outcomes of `Fetcher.process`. -/
inductive ProcessResult where
  | webpageEvent (e : WebpageEvent)
  | skippedRobots (url : String)
  | siteWideFailure (reason : String)
  | urlSpecificFailure (statusCode : Option Nat) (reason : String)
  deriving DecidableEq, Repr

/-! ## Fetcher (`fetcher.py`) -/

/-- A cache `set(key, value, ttl_seconds)` call. -/
structure CacheWrite where
  key : String
  value : String
  ttlSeconds : Nat
  deriving DecidableEq, Repr

/-- A producer `send(topic, payload, key)` call; the payload is the event
(its JSON encoding is external), the key the raw message-key bytes. -/
structure KafkaSend where
  topic : String
  event : WebpageEvent
  key : List Nat
  deriving DecidableEq, Repr

/-- The externally visible effects of one `process`/`_do_fetch` call:
sleeps performed (seconds), cache writes, Kafka sends, and the number of
HTTP fetch attempts issued. -/
structure Effects where
  sleeps : List ℚ
  cacheWrites : List CacheWrite
  sends : List KafkaSend
  fetchAttempts : Nat
  deriving DecidableEq, Repr

/-- No effects. -/
def noEffects : Effects := ⟨[], [], [], 0⟩

/-- Effects of two successive phases, in order. -/
def mergeEffects (x y : Effects) : Effects :=
  ⟨x.sleeps ++ y.sleeps, x.cacheWrites ++ y.cacheWrites,
   x.sends ++ y.sends, x.fetchAttempts + y.fetchAttempts⟩

/-- What the HTTP world returns for one fetch attempt: a transport
exception (class name and message) or a response. -/
inductive HttpOutcome where
  | exc (excName excMessage : String)
  | response (statusCode : Nat) (reasonPhrase : String)
      (contentType : Option String) (body : String)
  deriving DecidableEq, Repr

/-- `_cache_key(url) = f"webpage:{sha256(url).hexdigest()}"`. -/
def cache_key (url : String) : String :=
  "webpage:" ++ sha256Hex (utf8Bytes url)

/-- `_classify_exception`: site-wide, reason `f"{type(exc).__name__}: {exc}"`. -/
def classify_exception (excName excMessage : String) : ProcessResult :=
  .siteWideFailure (excName ++ ": " ++ excMessage)

/-- `_classify_response`: 5xx (and 502/503/504) are site-wide; the rest of
the `≥ 400` range is URL-specific with the status code attached. -/
def classify_response (statusCode : Nat) (reason : String) : ProcessResult :=
  if 500 ≤ statusCode ∨ statusCode = 502 ∨ statusCode = 503 ∨ statusCode = 504 then
    .siteWideFailure ("HTTP " ++ toString statusCode ++ " " ++ reason)
  else
    .urlSpecificFailure (some statusCode) ("HTTP " ++ toString statusCode ++ " " ++ reason)

/-- The configuration slice of `Fetcher` that affects its visible
behaviour in this model (timeouts, user agent and redirect limits
configure the external HTTP client). -/
structure FetcherConfig where
  topic : String
  cacheTtlSeconds : Nat
  maxRetries : Nat
  retryBackoffBase : ℚ
  deriving DecidableEq, Repr

/-- `Fetcher._do_fetch`: one attempt.  A transport exception or a `≥ 400`
status is classified; otherwise the body is cached under `cache_key url`,
the event is built and sent keyed by the raw `sha256(url)` digest. -/
def do_fetch (cfg : FetcherConfig) (url : String) (now : ℚ)
    (o : HttpOutcome) : ProcessResult × Effects :=
  match o with
  | .exc name msg => (classify_exception name msg, ⟨[], [], [], 1⟩)
  | .response statusCode reason contentType body =>
    if 400 ≤ statusCode then (classify_response statusCode reason, ⟨[], [], [], 1⟩)
    else
      let ck := cache_key url
      let event : WebpageEvent :=
        { url := url
          cacheKey := ck
          statusCode := statusCode
          contentType := contentType
          contentLength := (utf8Bytes body).length
          contentHash := sha256Hex (utf8Bytes body)
          fetchedAt := now }
      (.webpageEvent event,
       ⟨[], [⟨ck, body, cfg.cacheTtlSeconds⟩],
        [⟨cfg.topic, event, sha256 (utf8Bytes url)⟩], 1⟩)

/-- The attempt loop of `Fetcher.process` (`for attempt in range(max_retries + 1)`).
The fuel is the number of remaining iterations; on `attempt > 0` the loop
first sleeps `retry_backoff_base ** attempt`.  A `UrlSpecificFailure` whose
status code is truthy and `≥ 500` continues to the next attempt (returning
the last failure when iterations run out); every other outcome leaves the
loop at once. -/
def processLoop (cfg : FetcherConfig) (url : String) (now : ℚ)
    (outcomes : Nat → HttpOutcome) (attempt : Nat) : Nat → ProcessResult × Effects
  | 0 => (.urlSpecificFailure none "AssertionError: last_error is None", noEffects)
  | fuel + 1 =>
    let pre : List ℚ := if 0 < attempt then [cfg.retryBackoffBase ^ attempt] else []
    let step := do_fetch cfg url now (outcomes attempt)
    let eff : Effects := { step.2 with sleeps := pre ++ step.2.sleeps }
    match step.1 with
    | .urlSpecificFailure st reason =>
      if 500 ≤ st.getD 0 then
        match fuel with
        | 0 => (.urlSpecificFailure st reason, eff)
        | f + 1 =>
          let rest := processLoop cfg url now outcomes (attempt + 1) (f + 1)
          (rest.1, mergeEffects eff rest.2)
      else (.urlSpecificFailure st reason, eff)
    | r => (r, eff)

/-- `Fetcher.process` after the robots gate (whose verdict enters as
`robotsAllowed`) and the rate-limiter `acquire` (which blocks but has no
further visible effect on the outcome). -/
def process (cfg : FetcherConfig) (url : String) (robotsAllowed : Bool)
    (now : ℚ) (outcomes : Nat → HttpOutcome) : ProcessResult × Effects :=
  if robotsAllowed then processLoop cfg url now outcomes 0 (cfg.maxRetries + 1)
  else (.skippedRobots url, noEffects)

/-! ## Circuit breaker (`circuit_breaker.py`) -/

/-- The three circuit states. -/
inductive CircuitState where
  | closed
  | opened
  | halfOpen
  deriving DecidableEq, Repr

/-- The `CircuitBreaker` object: configuration plus mutable fields. -/
structure CircuitBreaker where
  failureThreshold : Nat
  initialBackoff : ℚ
  maxBackoff : ℚ
  backoffMultiplier : ℚ
  consecutiveFailures : Nat
  state : CircuitState
  currentBackoff : ℚ
  backoffTier : Nat
  deriving DecidableEq, Repr

/-- `CircuitBreaker.__init__`. -/
def initBreaker (failureThreshold : Nat) (initialBackoff maxBackoff backoffMultiplier : ℚ) :
    CircuitBreaker :=
  { failureThreshold := failureThreshold
    initialBackoff := initialBackoff
    maxBackoff := maxBackoff
    backoffMultiplier := backoffMultiplier
    consecutiveFailures := 0
    state := .closed
    currentBackoff := initialBackoff
    backoffTier := 0 }

/-- `record_success`: reset the failure counter; from half-open, close and
reset backoff and tier. -/
def record_success (cb : CircuitBreaker) : CircuitBreaker :=
  let cb := { cb with consecutiveFailures := 0 }
  if cb.state = .halfOpen then
    { cb with state := .closed, currentBackoff := cb.initialBackoff, backoffTier := 0 }
  else cb

/-- `record_site_wide_failure`: bump the counter; from closed, open once
the threshold is reached. -/
def record_site_wide_failure (cb : CircuitBreaker) : CircuitBreaker :=
  let cb := { cb with consecutiveFailures := cb.consecutiveFailures + 1 }
  if cb.state = .closed ∧ cb.failureThreshold ≤ cb.consecutiveFailures then
    { cb with state := .opened }
  else cb

/-- `wait_if_open`: from open, sleep the current backoff, move to
half-open, bump the tier and recompute the backoff (capped); otherwise
return immediately.  The sleeps performed are returned alongside. -/
def wait_if_open (cb : CircuitBreaker) : List ℚ × CircuitBreaker :=
  if cb.state = .opened then
    ([cb.currentBackoff],
     { cb with
        state := .halfOpen
        backoffTier := cb.backoffTier + 1
        currentBackoff :=
          min (cb.initialBackoff * cb.backoffMultiplier ^ (cb.backoffTier + 1)) cb.maxBackoff })
  else ([], cb)

/-- `should_probe`: true exactly in the half-open state. -/
def should_probe (cb : CircuitBreaker) : Bool := cb.state = .halfOpen

/-- `record_probe_failure`: back to open. -/
def record_probe_failure (cb : CircuitBreaker) : CircuitBreaker :=
  { cb with state := .opened }

/-! ## Rate limiter (`rate_limiter.py`)

The Lua script runs atomically at the KV store; it is embedded as a pure
function of the stored value.  The wall clock enters as a sequence
`times : Nat → ℚ` of observations, one per gate check. -/

/-- `rate_limit:{domain}`. -/
def rate_limit_key (domain : String) : String := "rate_limit:" ++ domain

/-- `1.0 / requests_per_second if requests_per_second > 0 else 0.0`. -/
def min_interval (requestsPerSecond : ℚ) : ℚ :=
  if 0 < requestsPerSecond then 1 / requestsPerSecond else 0

/-- `max(2, int(min_interval) + 1)`; `int` truncates, and the interval is
never negative, so this is the floor. -/
def rateLimitTtl (requestsPerSecond : ℚ) : Nat :=
  max 2 ((min_interval requestsPerSecond).floor.toNat + 1)

/-- The atomic gate (`RATE_LIMIT_SCRIPT`): allowed when the stored value is
absent or `now - last ≥ min_interval`; on allow, the key is rewritten to
`now` with the TTL.  Returns the verdict and the write performed. -/
def rateLimitScript (last : Option ℚ) (now minInterval : ℚ) (ttl : Nat) :
    Bool × Option (ℚ × Nat) :=
  match last with
  | none => (true, some (now, ttl))
  | some l => if minInterval ≤ now - l then (true, some (now, ttl)) else (false, none)

/-- The `RateLimiter` object's derived fields. -/
structure RateLimiter where
  minInterval : ℚ
  pollInterval : ℚ
  ttl : Nat
  deriving DecidableEq, Repr

/-- `RateLimiter.__init__`. -/
def mkRateLimiter (requestsPerSecond pollIntervalSeconds : ℚ) : RateLimiter :=
  ⟨min_interval requestsPerSecond, pollIntervalSeconds, rateLimitTtl requestsPerSecond⟩

/-- `acquire(domain)`: poll the gate until allowed, sleeping
`poll_interval` after every denial.  The stored value only changes on
allow, so it stays `last` throughout the loop; `times i` is the wall clock
at the `i`-th check.  Returns the sleeps performed and the KV write
`(key, value, ttl)` of the successful check, or `none` if the fuel runs
out while denied. -/
def acquire (lim : RateLimiter) (domain : String) (times : Nat → ℚ)
    (last : Option ℚ) : Nat → Nat → Option (List ℚ × (String × ℚ × Nat))
  | _, 0 => none
  | i, fuel + 1 =>
    match rateLimitScript last (times i) lim.minInterval lim.ttl with
    | (true, _) => some ([], (rate_limit_key domain, times i, lim.ttl))
    | (false, _) =>
      match acquire lim domain times last (i + 1) fuel with
      | none => none
      | some (sleeps, w) => some (lim.pollInterval :: sleeps, w)

/-! ## Robots checker (`robots.py`)

`urlparse` netloc extraction and the stdlib `robotparser` are external
(standard-library) collaborators; they enter as the parameters `domainOf`
and `canFetch` (`canFetch body userAgent url` is the parser's verdict on
the given robots.txt body). -/

/-- `robots:{domain}`. -/
def robots_cache_key (domain : String) : String := "robots:" ++ domain

/-- `RobotsChecker.is_allowed(url)`: empty domain allows; a cache hit
defers to the parser on the cached body; a miss consults the injected
fetcher (`none` until `set_fetcher`), allowing permissively — without
caching — when it is unset or returns absent, and otherwise caching the
body and deferring to the parser.  Returns the verdict and cache writes. -/
def is_allowed (domainOf : String → String)
    (canFetch : String → String → String → Bool)
    (cache : String → Option String)
    (fetch : Option (String → Option String))
    (userAgent : String) (cacheTtlSeconds : Nat) (url : String) :
    Bool × List CacheWrite :=
  let domain := domainOf url
  if domain = "" then (true, [])
  else
    match cache (robots_cache_key domain) with
    | some raw => (canFetch raw userAgent url, [])
    | none =>
      match fetch with
      | none => (true, [])
      | some f =>
        match f domain with
        | none => (true, [])
        | some body =>
          (canFetch body userAgent url, [⟨robots_cache_key domain, body, cacheTtlSeconds⟩])

/-! ## Fetch-loop dispatch (`page_fetcher/main.py`)

The worker's queues are Redis lists accessed through `RedisQueue`
(`enqueue` = RPUSH at the tail, `dequeue` = LPOP/BLPOP at the head), so a
queue is a list whose head is the next item dequeued and whose tail is
where `enqueue` appends. -/

/-- The worker-visible state around one outcome dispatch. -/
structure WorkerState where
  inputQueue : List String
  dlq : List String
  breaker : CircuitBreaker
  deriving DecidableEq, Repr

/-- The `match result` dispatch at the bottom of the worker loop. -/
def dispatch (st : WorkerState) (url : String) : ProcessResult → WorkerState
  | .webpageEvent _ => { st with breaker := record_success st.breaker }
  | .skippedRobots _ => st
  | .siteWideFailure _ =>
    { st with
        inputQueue := st.inputQueue ++ [url]
        breaker := record_site_wide_failure st.breaker }
  | .urlSpecificFailure _ _ => { st with dlq := st.dlq ++ [url] }

/-! ## Scheduler (`crawler_scheduler`) -/

/-- The scheduler's two queues, head first (the head is what `dequeue`
returns next). -/
structure SchedulerState where
  inputQueue : List String
  outputQueue : List String
  deriving DecidableEq, Repr

/-- One iteration of the packaged scheduler loop
(`src/crawler_scheduler/main.py`): dequeue from the input head; under
backpressure (`output length ≥ max_queue_size`) re-enqueue the popped URL
via `Queue.enqueue`, i.e. at the input tail; otherwise append it to the
output tail.  An empty input (dequeue timeout) leaves the state alone. -/
def schedulerStep (maxQueueSize : Nat) (st : SchedulerState) : SchedulerState :=
  match st.inputQueue with
  | [] => st
  | url :: rest =>
    if maxQueueSize ≤ st.outputQueue.length then
      { inputQueue := rest ++ [url], outputQueue := st.outputQueue }
    else
      { inputQueue := rest, outputQueue := st.outputQueue ++ [url] }

/-- One iteration of the legacy scheduler loop (the duplicate
`crawler_scheduler/main.py` working on raw Redis lists, leftmost element
first): BRPOP pops the rightmost element; under backpressure the URL is
LPUSHed, i.e. prepended at the leftmost end — the end BRPOP reaches last —
and otherwise RPUSHed onto the output. -/
def legacySchedulerStep (maxQueueSize : Nat) (st : SchedulerState) : SchedulerState :=
  match st.inputQueue.getLast? with
  | none => st
  | some url =>
    let rest := st.inputQueue.dropLast
    if maxQueueSize ≤ st.outputQueue.length then
      { inputQueue := url :: rest, outputQueue := st.outputQueue }
    else
      { inputQueue := rest, outputQueue := st.outputQueue ++ [url] }

/-! ## Seeds (`crawler_scheduler/seeds.py`)

YAML parsing is external; what reaches `load_seeds`'s comprehension is
whether the file existed, whether it parsed, and — when `data["seeds"]` is
a list — which entries are strings.  A non-string entry is dropped by the
`isinstance` test whatever its truthiness. -/

/-- Python's `str.isspace` on the ASCII whitespace characters (the wider
Unicode whitespace set never occurs in seed URLs). -/
def isPySpace (c : Char) : Bool :=
  c = ' ' ∨ c = '\t' ∨ c = '\n' ∨ c = '\r' ∨ c = '\x0b' ∨ c = '\x0c'

/-- Python's `str.strip()`: drop leading and trailing whitespace. -/
def strip (s : String) : String :=
  ⟨((s.toList.dropWhile isPySpace).reverse.dropWhile isPySpace).reverse⟩

/-- One entry of the parsed `seeds` list. -/
inductive YamlEntry where
  | str (s : String)
  | nonStr
  deriving DecidableEq, Repr

/-- The possible shapes of the seed file as seen by `load_seeds`. -/
inductive SeedDoc where
  | missing
  | unparseable
  | noSeedsList
  | seedsList (entries : List YamlEntry)

/-- `load_seeds`: `[]` for a missing or unparseable file or a document
without a `seeds` list; otherwise
`[str(s).strip() for s in seeds if s and isinstance(s, str)]`. -/
def load_seeds : SeedDoc → List String
  | .missing => []
  | .unparseable => []
  | .noSeedsList => []
  | .seedsList es =>
    es.filterMap fun e =>
      match e with
      | .str s => if s = "" then none else some (strip s)
      | .nonStr => none

/-- `enqueue_seeds`: RPUSH seeds one at a time onto the output queue,
breaking as soon as its observed length is at least `max_queue_size`;
returns the queue and the number of seeds actually enqueued. -/
def enqueue_seeds (maxQueueSize : Nat) (queue : List String) :
    List String → List String × Nat
  | [] => (queue, 0)
  | url :: rest =>
    if maxQueueSize ≤ queue.length then (queue, 0)
    else
      let r := enqueue_seeds maxQueueSize (queue ++ [url]) rest
      (r.1, r.2 + 1)

/-! ## Facts about a single fetch attempt -/

/-- `_do_fetch` issues exactly one HTTP attempt. -/
theorem do_fetch_attempts (cfg : FetcherConfig) (url : String) (now : ℚ)
    (o : HttpOutcome) : (do_fetch cfg url now o).2.fetchAttempts = 1 := by
  cases o with
  | exc name msg => rfl
  | response status reason ct body =>
    by_cases h : 400 ≤ status <;> simp [do_fetch, h]

/-- A `UrlSpecificFailure` out of `_do_fetch` always carries a status code
in `[400, 500)`. -/
theorem do_fetch_urlSpecific_range (cfg : FetcherConfig) (url : String) (now : ℚ)
    (o : HttpOutcome) (st : Option Nat) (reason : String)
    (h : (do_fetch cfg url now o).1 = ProcessResult.urlSpecificFailure st reason) :
    ∃ c, st = some c ∧ 400 ≤ c ∧ c < 500 := by
  cases o with
  | exc name msg => simp [do_fetch, classify_exception] at h
  | response status rp ct body =>
    by_cases h4 : 400 ≤ status
    · simp only [do_fetch, if_pos h4, classify_response] at h
      by_cases h5 : 500 ≤ status ∨ status = 502 ∨ status = 503 ∨ status = 504
      · simp [if_pos h5] at h
      · simp only [if_neg h5] at h
        obtain ⟨rfl, -⟩ := ProcessResult.urlSpecificFailure.inj h.symm
        exact ⟨status, rfl, h4, by omega⟩
    · simp [do_fetch, if_neg h4] at h

/-- The attempt loop returns after its first attempt: the continue branch
needs a `UrlSpecificFailure` with status `≥ 500`, which no attempt
produces. -/
theorem processLoop_succ_eq (cfg : FetcherConfig) (url : String) (now : ℚ)
    (outcomes : Nat → HttpOutcome) (attempt fuel : Nat) :
    processLoop cfg url now outcomes attempt (fuel + 1) =
      ((do_fetch cfg url now (outcomes attempt)).1,
       { (do_fetch cfg url now (outcomes attempt)).2 with
          sleeps := (if 0 < attempt then [cfg.retryBackoffBase ^ attempt] else []) ++
            (do_fetch cfg url now (outcomes attempt)).2.sleeps }) := by
  rw [processLoop]
  cases hstep : do_fetch cfg url now (outcomes attempt) with
  | mk r eff =>
    cases r with
    | urlSpecificFailure st reason =>
      obtain ⟨c, rfl, -, hlt⟩ :=
        do_fetch_urlSpecific_range cfg url now (outcomes attempt) st reason
          (by rw [hstep])
      have : ¬ 500 ≤ (Option.getD (some c) 0) := by simpa using by omega
      simp [hstep, this]
      exact fun h => absurd h (by omega)
    | webpageEvent e => simp [hstep]
    | skippedRobots u => simp [hstep]
    | siteWideFailure reasonText => simp [hstep]

/-- C10: every `UrlSpecificFailure` returned by `process` carries a status
code in `[400, 500)` — the response classifier routes all `≥ 500` codes to
`SiteWideFailure` — so the in-loop retry continuation is unreachable and
`process` issues at most one HTTP fetch attempt per call. -/
theorem claim_C10 (cfg : FetcherConfig) (url : String) (robotsAllowed : Bool)
    (now : ℚ) (outcomes : Nat → HttpOutcome) :
    (∀ st reason,
      (process cfg url robotsAllowed now outcomes).1 =
        ProcessResult.urlSpecificFailure st reason →
      ∃ c, st = some c ∧ 400 ≤ c ∧ c < 500)
    ∧ (process cfg url robotsAllowed now outcomes).2.fetchAttempts ≤ 1 := by
  cases robotsAllowed with
  | false => exact ⟨fun st reason h => by simp [process] at h, by simp [process, noEffects]⟩
  | true =>
    have hloop := processLoop_succ_eq cfg url now outcomes 0 cfg.maxRetries
    constructor
    · intro st reason h
      rw [process, if_pos rfl, hloop] at h
      exact do_fetch_urlSpecific_range cfg url now (outcomes 0) st reason h
    · rw [process, if_pos rfl, hloop]
      simp [do_fetch_attempts]

/-- C10, instantiated: a 404 response yields a `UrlSpecificFailure` whose
status code is in range, after a single attempt. -/
theorem claim_C10_witness :
    (∃ c, some 404 = some c ∧ 400 ≤ c ∧ c < 500)
    ∧ (process ⟨"webpage_log", 3600, 3, 2⟩ "https://example.com/a" true 0
        (fun _ => HttpOutcome.response 404 "Not Found" none "")).2.fetchAttempts ≤ 1 :=
  ⟨(claim_C10 ⟨"webpage_log", 3600, 3, 2⟩ "https://example.com/a" true 0
      (fun _ => HttpOutcome.response 404 "Not Found" none "")).1
    (some 404) "HTTP 404 Not Found" (by decide),
   (claim_C10 ⟨"webpage_log", 3600, 3, 2⟩ "https://example.com/a" true 0
      (fun _ => HttpOutcome.response 404 "Not Found" none "")).2⟩

/-- C1 counterexample: with `max_retries = 3` and `retry_backoff_base = 2`,
a fetch whose every attempt would answer HTTP 503 is *not* retried
in-process: `process` returns a `SiteWideFailure` after exactly one
attempt with no backoff sleeps, instead of the claimed four attempts with
sleeps `[2, 4, 8]` ending in a `UrlSpecificFailure`. -/
theorem claim_C1_counterexample :
    process ⟨"webpage_log", 3600, 3, 2⟩ "https://example.com/a" true 0
        (fun _ => HttpOutcome.response 503 "Service Unavailable" none "") =
      (ProcessResult.siteWideFailure "HTTP 503 Service Unavailable", ⟨[], [], [], 1⟩)
    ∧ ProcessResult.siteWideFailure "HTTP 503 Service Unavailable" ≠
        ProcessResult.urlSpecificFailure (some 503) "HTTP 503 Service Unavailable"
    ∧ (Effects.mk [] [] [] 1) ≠ (Effects.mk [2, 4, 8] [] [] 4) := by
  refine ⟨by decide, by decide, by decide⟩

/-- C1 (amended): within a single `process()` call (after the robots and
rate-limit gates pass), a fetch attempt that yields an HTTP 5xx response
is *not* retried in-process: it is classified as a `SiteWideFailure` and
returned immediately after the first attempt, with no backoff sleep —
the in-loop retry continuation applies only to a `UrlSpecificFailure`
with `status_code ≥ 500`, which the classifier never produces. -/
theorem claim_C1 (cfg : FetcherConfig) (url : String) (now : ℚ)
    (outcomes : Nat → HttpOutcome) (status : Nat) (reason : String)
    (ct : Option String) (body : String) (h5 : 500 ≤ status)
    (h0 : outcomes 0 = HttpOutcome.response status reason ct body) :
    process cfg url true now outcomes =
      (ProcessResult.siteWideFailure ("HTTP " ++ toString status ++ " " ++ reason),
       ⟨[], [], [], 1⟩) := by
  rw [process, if_pos rfl, processLoop_succ_eq, h0]
  have h4 : 400 ≤ status := by omega
  simp [do_fetch, if_pos h4, classify_response, Or.inl h5]

/-- C1 amended, instantiated at a concrete 503 answer. -/
theorem claim_C1_witness :
    process ⟨"webpage_log", 3600, 3, 2⟩ "https://example.com/b" true 0
        (fun _ => HttpOutcome.response 503 "Service Unavailable" none "") =
      (ProcessResult.siteWideFailure ("HTTP " ++ toString 503 ++ " " ++ "Service Unavailable"),
       ⟨[], [], [], 1⟩) :=
  claim_C1 ⟨"webpage_log", 3600, 3, 2⟩ "https://example.com/b" 0
    (fun _ => HttpOutcome.response 503 "Service Unavailable" none "")
    503 "Service Unavailable" none "" (by omega) rfl

/-- C5: one fetch attempt classifies its outcome as specified — a
transport exception becomes a `SiteWideFailure` whose reason joins the
exception class and message; a response with status `≥ 500` (which
subsumes 502, 503 and 504) becomes a `SiteWideFailure`; and a response
with status in `[400, 500)` becomes a `UrlSpecificFailure` carrying that
status code. -/
theorem claim_C5 (cfg : FetcherConfig) (url : String) (now : ℚ)
    (excName excMessage reason : String) (status : Nat)
    (ct : Option String) (body : String) :
    do_fetch cfg url now (HttpOutcome.exc excName excMessage) =
      (ProcessResult.siteWideFailure (excName ++ ": " ++ excMessage), ⟨[], [], [], 1⟩)
    ∧ (500 ≤ status ∨ status = 502 ∨ status = 503 ∨ status = 504 →
        do_fetch cfg url now (HttpOutcome.response status reason ct body) =
          (ProcessResult.siteWideFailure ("HTTP " ++ toString status ++ " " ++ reason),
           ⟨[], [], [], 1⟩))
    ∧ (400 ≤ status → status < 500 →
        do_fetch cfg url now (HttpOutcome.response status reason ct body) =
          (ProcessResult.urlSpecificFailure (some status)
            ("HTTP " ++ toString status ++ " " ++ reason), ⟨[], [], [], 1⟩)) := by
  refine ⟨rfl, fun h5 => ?_, fun h4 h5 => ?_⟩
  · have h4 : 400 ≤ status := by omega
    simp [do_fetch, if_pos h4, classify_response, h5]
  · have hnot : ¬ (500 ≤ status ∨ status = 502 ∨ status = 503 ∨ status = 504) := by omega
    simp [do_fetch, if_pos h4, classify_response, hnot]

/-- C5, instantiated: a connect error, a 503 and a 404. -/
theorem claim_C5_witness :
    do_fetch ⟨"webpage_log", 3600, 3, 2⟩ "https://example.com/a" 0
        (HttpOutcome.exc "ConnectError" "dns failure") =
      (ProcessResult.siteWideFailure ("ConnectError" ++ ": " ++ "dns failure"), ⟨[], [], [], 1⟩)
    ∧ do_fetch ⟨"webpage_log", 3600, 3, 2⟩ "https://example.com/a" 0
        (HttpOutcome.response 503 "Service Unavailable" none "") =
      (ProcessResult.siteWideFailure ("HTTP " ++ toString 503 ++ " " ++ "Service Unavailable"),
       ⟨[], [], [], 1⟩)
    ∧ do_fetch ⟨"webpage_log", 3600, 3, 2⟩ "https://example.com/a" 0
        (HttpOutcome.response 404 "Not Found" none "") =
      (ProcessResult.urlSpecificFailure (some 404) ("HTTP " ++ toString 404 ++ " " ++ "Not Found"),
       ⟨[], [], [], 1⟩) :=
  ⟨(claim_C5 ⟨"webpage_log", 3600, 3, 2⟩ "https://example.com/a" 0
      "ConnectError" "dns failure" "Service Unavailable" 503 none "").1,
   (claim_C5 ⟨"webpage_log", 3600, 3, 2⟩ "https://example.com/a" 0
      "ConnectError" "dns failure" "Service Unavailable" 503 none "").2.1 (by omega),
   (claim_C5 ⟨"webpage_log", 3600, 3, 2⟩ "https://example.com/a" 0
      "ConnectError" "dns failure" "Not Found" 404 none "").2.2 (by omega) (by omega)⟩

/-- C4: a successful fetch emits a `WebpageEvent` whose cache key is
`"webpage:" + sha256_hex(url)` (64 lowercase hex characters), whose
`content_length` is the byte length of the response body, whose
`content_hash` is the lowercase hex SHA-256 of the same bytes; the body is
written to the cache under the cache key, and the event is sent keyed by
the raw 32-byte `sha256(url)`. -/
theorem claim_C4 (cfg : FetcherConfig) (url : String) (now : ℚ)
    (status : Nat) (reason : String) (ct : Option String) (body : String)
    (hok : status < 400) :
    ∃ e : WebpageEvent,
      do_fetch cfg url now (HttpOutcome.response status reason ct body) =
        (ProcessResult.webpageEvent e,
         ⟨[], [⟨e.cacheKey, body, cfg.cacheTtlSeconds⟩],
          [⟨cfg.topic, e, sha256 (utf8Bytes url)⟩], 1⟩)
      ∧ e.cacheKey = "webpage:" ++ sha256Hex (utf8Bytes url)
      ∧ (sha256Hex (utf8Bytes url)).length = 64
      ∧ (∀ c ∈ (sha256Hex (utf8Bytes url)).toList, c ∈ "0123456789abcdef".toList)
      ∧ e.contentLength = (utf8Bytes body).length
      ∧ e.contentHash = sha256Hex (utf8Bytes body)
      ∧ (sha256 (utf8Bytes url)).length = 32 := by
  have hnot : ¬ 400 ≤ status := by omega
  refine ⟨⟨url, cache_key url, status, ct, (utf8Bytes body).length,
    sha256Hex (utf8Bytes body), now⟩, ?_, rfl, sha256Hex_length _, sha256Hex_chars _,
    rfl, rfl, sha256_length _⟩
  simp [do_fetch, if_neg hnot]

/-- C4, instantiated at a 200 response with body `"hello"`. -/
theorem claim_C4_witness :
    ∃ e : WebpageEvent,
      do_fetch ⟨"webpage_log", 3600, 3, 2⟩ "https://example.com/a" 0
          (HttpOutcome.response 200 "OK" (some "text/html") "hello") =
        (ProcessResult.webpageEvent e,
         ⟨[], [⟨e.cacheKey, "hello", 3600⟩],
          [⟨"webpage_log", e, sha256 (utf8Bytes "https://example.com/a")⟩], 1⟩)
      ∧ e.cacheKey = "webpage:" ++ sha256Hex (utf8Bytes "https://example.com/a")
      ∧ (sha256Hex (utf8Bytes "https://example.com/a")).length = 64
      ∧ (∀ c ∈ (sha256Hex (utf8Bytes "https://example.com/a")).toList,
          c ∈ "0123456789abcdef".toList)
      ∧ e.contentLength = (utf8Bytes "hello").length
      ∧ e.contentHash = sha256Hex (utf8Bytes "hello")
      ∧ (sha256 (utf8Bytes "https://example.com/a")).length = 32 :=
  claim_C4 ⟨"webpage_log", 3600, 3, 2⟩ "https://example.com/a" 0
    200 "OK" (some "text/html") "hello" (by omega)

/-! ## Circuit breaker claims -/

/-- Below the threshold, consecutive site-wide failures from the initial
state only grow the counter. -/
theorem iterate_failures_closed (threshold : Nat) (ib mb mult : ℚ) :
    ∀ k, k < threshold →
      Nat.iterate record_site_wide_failure k (initBreaker threshold ib mb mult) =
        { initBreaker threshold ib mb mult with consecutiveFailures := k } := by
  intro k
  induction k with
  | zero => intro _; rfl
  | succ k ih =>
    intro hk
    rw [Function.iterate_succ_apply', ih (by omega)]
    have hlt : ¬ threshold ≤ k + 1 := by omega
    simp [record_site_wide_failure, initBreaker, hlt]

/-- C2: the circuit breaker state machine — `threshold` consecutive
site-wide failures from the fresh closed state open the circuit;
`wait_if_open` from open sleeps the current backoff, moves to half-open,
bumps the tier and caps the recomputed backoff at the maximum;
`record_success` from half-open closes and resets backoff and tier; and
`should_probe` holds exactly in the half-open state. -/
theorem claim_C2 (threshold : Nat) (ib mb mult : ℚ) (cb : CircuitBreaker) :
    (0 < threshold →
      (Nat.iterate record_site_wide_failure threshold
        (initBreaker threshold ib mb mult)).state = CircuitState.opened)
    ∧ (cb.state = CircuitState.opened →
        wait_if_open cb = ([cb.currentBackoff],
          { cb with
              state := CircuitState.halfOpen
              backoffTier := cb.backoffTier + 1
              currentBackoff :=
                min (cb.initialBackoff * cb.backoffMultiplier ^ (cb.backoffTier + 1))
                  cb.maxBackoff }))
    ∧ (cb.state = CircuitState.halfOpen →
        record_success cb =
          { cb with
              consecutiveFailures := 0
              state := CircuitState.closed
              currentBackoff := cb.initialBackoff
              backoffTier := 0 })
    ∧ (should_probe cb = true ↔ cb.state = CircuitState.halfOpen) := by
  refine ⟨?_, ?_, ?_, ?_⟩
  · intro hpos
    obtain ⟨t, rfl⟩ : ∃ t, threshold = t + 1 := ⟨threshold - 1, by omega⟩
    rw [Function.iterate_succ_apply', iterate_failures_closed (t + 1) ib mb mult t (by omega)]
    simp [record_site_wide_failure, initBreaker]
  · intro h; simp [wait_if_open, h]
  · intro h; simp [record_success, h]
  · simp [should_probe]

/-- C2, instantiated at the default configuration (threshold 5, initial
backoff 30 s, multiplier 2, cap 300 s). -/
theorem claim_C2_witness :
    (Nat.iterate record_site_wide_failure 5 (initBreaker 5 30 300 2)).state =
      CircuitState.opened
    ∧ wait_if_open ⟨5, 30, 300, 2, 5, CircuitState.opened, 30, 0⟩ =
        ([30], ⟨5, 30, 300, 2, 5, CircuitState.halfOpen, 60, 1⟩)
    ∧ record_success ⟨5, 30, 300, 2, 0, CircuitState.halfOpen, 60, 1⟩ =
        ⟨5, 30, 300, 2, 0, CircuitState.closed, 30, 0⟩
    ∧ (should_probe ⟨5, 30, 300, 2, 0, CircuitState.halfOpen, 60, 1⟩ = true ↔
        (CircuitBreaker.mk 5 30 300 2 0 CircuitState.halfOpen 60 1).state =
          CircuitState.halfOpen) := by
  refine ⟨(claim_C2 5 30 300 2 ⟨5, 30, 300, 2, 5, CircuitState.opened, 30, 0⟩).1 (by omega),
    ?_, ?_, (claim_C2 5 30 300 2 ⟨5, 30, 300, 2, 0, CircuitState.halfOpen, 60, 1⟩).2.2.2⟩
  · have h := (claim_C2 5 30 300 2 ⟨5, 30, 300, 2, 5, CircuitState.opened, 30, 0⟩).2.1 rfl
    rw [h]; norm_num [min_def]
  · have h := (claim_C2 5 30 300 2 ⟨5, 30, 300, 2, 0, CircuitState.halfOpen, 60, 1⟩).2.2.1 rfl
    rw [h]

/-! ## Rate limiter claims -/

/-- Every sleep performed by `acquire` is one poll interval. -/
theorem acquire_sleeps_poll (lim : RateLimiter) (domain : String) (times : Nat → ℚ)
    (last : Option ℚ) :
    ∀ fuel i sleeps w, acquire lim domain times last i fuel = some (sleeps, w) →
      ∀ x ∈ sleeps, x = lim.pollInterval := by
  intro fuel
  induction fuel with
  | zero => intro i s w h; simp [acquire] at h
  | succ fuel ih =>
    intro i s w h
    rw [acquire] at h
    cases hs : rateLimitScript last (times i) lim.minInterval lim.ttl with
    | mk b wr =>
      rw [hs] at h
      cases b with
      | true =>
        simp at h
        obtain ⟨rfl, rfl⟩ := h
        intro x hx
        simp at hx
      | false =>
        cases ha : acquire lim domain times last (i + 1) fuel with
        | none => rw [ha] at h; simp at h
        | some p =>
          obtain ⟨s', w'⟩ := p
          rw [ha] at h
          simp at h
          obtain ⟨rfl, rfl⟩ := h
          intro x hx
          rcases List.mem_cons.mp hx with rfl | hx'
          · rfl
          · exact ih (i + 1) s' w' ha x hx'

/-- C3: the atomic gate allows when the stored timestamp is absent or the
minimum interval has elapsed (rewriting the key to `now` with TTL
`max(2, ⌊min_interval⌋ + 1)`) and denies otherwise; `acquire` sleeps one
poll interval per denied check and returns without sleeping when the first
check is allowed; and `requests_per_second = 0` is handled without
division, giving `min_interval = 0` and immediate admission. -/
theorem claim_C3 (r poll now l : ℚ) (domain : String) (lim : RateLimiter)
    (times : Nat → ℚ) (last : Option ℚ) (i fuel : Nat)
    (sleeps : List ℚ) (w : String × ℚ × Nat) :
    rate_limit_key domain = "rate_limit:" ++ domain
    ∧ (0 < r → (mkRateLimiter r poll).minInterval = 1 / r)
    ∧ (mkRateLimiter r poll).ttl = max 2 ((min_interval r).floor.toNat + 1)
    ∧ rateLimitScript none now (min_interval r) (rateLimitTtl r) =
        (true, some (now, rateLimitTtl r))
    ∧ (min_interval r ≤ now - l →
        rateLimitScript (some l) now (min_interval r) (rateLimitTtl r) =
          (true, some (now, rateLimitTtl r)))
    ∧ (now - l < min_interval r →
        rateLimitScript (some l) now (min_interval r) (rateLimitTtl r) = (false, none))
    ∧ min_interval 0 = 0
    ∧ (l ≤ now → rateLimitScript (some l) now (min_interval 0) (rateLimitTtl 0) =
        (true, some (now, rateLimitTtl 0)))
    ∧ (acquire lim domain times last i fuel = some (sleeps, w) →
        ∀ x ∈ sleeps, x = lim.pollInterval)
    ∧ (0 < fuel → (rateLimitScript last (times i) lim.minInterval lim.ttl).1 = true →
        acquire lim domain times last i fuel =
          some ([], (rate_limit_key domain, times i, lim.ttl))) := by
  refine ⟨rfl, fun hr => by simp [mkRateLimiter, min_interval, hr], rfl, rfl,
    fun h => by simp [rateLimitScript, if_pos h],
    fun h => by simp [rateLimitScript, not_le.mpr h],
    by simp [min_interval],
    fun h => ?_,
    fun h => acquire_sleeps_poll lim domain times last fuel i sleeps w h,
    fun hf ht => ?_⟩
  · have h0 : (0 : ℚ) ≤ now - l := by linarith
    simp [min_interval, rateLimitScript, h0]
  · obtain ⟨f, rfl⟩ : ∃ f, fuel = f + 1 := ⟨fuel - 1, by omega⟩
    rw [acquire]
    cases hs : rateLimitScript last (times i) lim.minInterval lim.ttl with
    | mk b wr =>
      rw [hs] at ht
      simp at ht
      subst ht
      rfl

/-- C3, instantiated: rate 2 requests/s (interval 1/2 s, TTL 2), with an
elapsed check at time 1, a denied check at time 1/4, an `acquire` run
denied twice before admission, and the zero-rate edge. -/
theorem claim_C3_witness :
    rate_limit_key "d.com" = "rate_limit:" ++ "d.com"
    ∧ (mkRateLimiter 2 (1 / 10)).minInterval = 1 / 2
    ∧ (mkRateLimiter 2 (1 / 10)).ttl = max 2 ((min_interval 2).floor.toNat + 1)
    ∧ rateLimitScript none 1 (min_interval 2) (rateLimitTtl 2) =
        (true, some (1, rateLimitTtl 2))
    ∧ rateLimitScript (some 0) 1 (min_interval 2) (rateLimitTtl 2) =
        (true, some (1, rateLimitTtl 2))
    ∧ rateLimitScript (some 0) (1 / 4) (min_interval 2) (rateLimitTtl 2) = (false, none)
    ∧ min_interval 0 = 0
    ∧ rateLimitScript (some 0) 1 (min_interval 0) (rateLimitTtl 0) =
        (true, some (1, rateLimitTtl 0))
    ∧ (∀ x ∈ [(7 : ℚ)], x = (RateLimiter.mk 1 7 2).pollInterval)
    ∧ acquire (RateLimiter.mk 1 7 2) "d.com" (fun _ => 5) (some 0) 0 1 =
        some ([], (rate_limit_key "d.com", (5 : ℚ), (RateLimiter.mk 1 7 2).ttl)) := by
  have H1 := claim_C3 2 (1 / 10) 1 0 "d.com" (RateLimiter.mk 1 7 2)
    (fun _ => (5 : ℚ)) (some 0) 0 1 [] (rate_limit_key "d.com", 5, 2)
  have H2 := claim_C3 2 (1 / 10) (1 / 4) 0 "d.com" (RateLimiter.mk 1 7 2)
    (fun i => if i = 0 then (0 : ℚ) else 5) (some 0) 0 2
    [(7 : ℚ)] (rate_limit_key "d.com", 5, 2)
  refine ⟨H1.1, H1.2.1 (by norm_num), H1.2.2.1, H1.2.2.2.1,
    H1.2.2.2.2.1 (by norm_num [min_interval]),
    H2.2.2.2.2.2.1 (by norm_num [min_interval]),
    H1.2.2.2.2.2.2.1,
    H1.2.2.2.2.2.2.2.1 (by norm_num),
    H2.2.2.2.2.2.2.2.2.1 (by norm_num [acquire, rateLimitScript]),
    H1.2.2.2.2.2.2.2.2.2 (by omega) (by norm_num [rateLimitScript])⟩

/-! ## Worker dispatch, scheduler and seed claims -/

/-- C6: the worker loop dispatches each `process` outcome exactly as
specified — success records success on the breaker; a robots skip drops
the URL; a site-wide failure re-enqueues the URL at the tail of the input
queue and records a site-wide failure; a URL-specific failure appends the
URL to the DLQ and nothing else. -/
theorem claim_C6 (st : WorkerState) (url u reason : String) (e : WebpageEvent)
    (sc : Option Nat) :
    dispatch st url (ProcessResult.webpageEvent e) =
      { st with breaker := record_success st.breaker }
    ∧ dispatch st url (ProcessResult.skippedRobots u) = st
    ∧ dispatch st url (ProcessResult.siteWideFailure reason) =
      { st with
          inputQueue := st.inputQueue ++ [url]
          breaker := record_site_wide_failure st.breaker }
    ∧ dispatch st url (ProcessResult.urlSpecificFailure sc reason) =
      { st with dlq := st.dlq ++ [url] } :=
  ⟨rfl, rfl, rfl, rfl⟩

/-- C7 counterexample: with `max_queue_size = 1`, input `["a", "b"]` and a
full output `["x"]`, the packaged scheduler re-enqueues the popped URL
`"a"` at the *tail* of the input queue, giving `["b", "a"]`, not the
head-push `["a", "b"]` the claim predicts. -/
theorem claim_C7_counterexample :
    schedulerStep 1 ⟨["a", "b"], ["x"]⟩ = ⟨["b", "a"], ["x"]⟩
    ∧ SchedulerState.mk ["b", "a"] ["x"] ≠ SchedulerState.mk ["a", "b"] ["x"] :=
  ⟨rfl, by decide⟩

/-- C7 (amended): under backpressure (`output length ≥ max_queue_size`)
nothing is appended to the output queue and the popped URL is re-enqueued
at the *tail* of the input queue in dequeue order — the packaged loop
RPUSHes against a BLPOP consumer, the legacy loop LPUSHes against a BRPOP
consumer, both placing the URL at the end reached last — while below the
limit the popped URL is appended to the tail of the output queue. -/
theorem claim_C7 (maxQueueSize : Nat) (url : String) (rest out : List String) :
    (maxQueueSize ≤ out.length →
      schedulerStep maxQueueSize ⟨url :: rest, out⟩ = ⟨rest ++ [url], out⟩)
    ∧ (out.length < maxQueueSize →
      schedulerStep maxQueueSize ⟨url :: rest, out⟩ = ⟨rest, out ++ [url]⟩)
    ∧ (maxQueueSize ≤ out.length →
      legacySchedulerStep maxQueueSize ⟨rest ++ [url], out⟩ = ⟨url :: rest, out⟩)
    ∧ (out.length < maxQueueSize →
      legacySchedulerStep maxQueueSize ⟨rest ++ [url], out⟩ = ⟨rest, out ++ [url]⟩) := by
  refine ⟨fun h => by simp [schedulerStep, h],
    fun h => by simp [schedulerStep, Nat.not_le.mpr h],
    fun h => by simp [legacySchedulerStep, List.getLast?_concat, List.dropLast_concat, h],
    fun h => by simp [legacySchedulerStep, List.getLast?_concat, List.dropLast_concat,
      Nat.not_le.mpr h]⟩

/-- C7 amended, instantiated: both loop variants, full and non-full. -/
theorem claim_C7_witness :
    schedulerStep 1 ⟨["u", "v"], ["x"]⟩ = ⟨["v", "u"], ["x"]⟩
    ∧ schedulerStep 5 ⟨["u", "v"], ["x"]⟩ = ⟨["v"], ["x", "u"]⟩
    ∧ legacySchedulerStep 1 ⟨["v", "u"], ["x"]⟩ = ⟨["u", "v"], ["x"]⟩
    ∧ legacySchedulerStep 5 ⟨["v", "u"], ["x"]⟩ = ⟨["v"], ["x", "u"]⟩ :=
  ⟨(claim_C7 1 "u" ["v"] ["x"]).1 (by simp),
   (claim_C7 5 "u" ["v"] ["x"]).2.1 (by simp),
   (claim_C7 1 "u" ["v"] ["x"]).2.2.1 (by simp),
   (claim_C7 5 "u" ["v"] ["x"]).2.2.2 (by simp)⟩

/-- C8: `is_allowed` answers allowed for an empty domain; on a cache hit
for `robots:{domain}` it returns the parser's `can_fetch` verdict on the
cached body without writing; and on a cache miss whose injected fetcher
returns absent it answers allowed and writes nothing to the cache. -/
theorem claim_C8 (domainOf : String → String)
    (canFetch : String → String → String → Bool)
    (cache : String → Option String) (fetch : Option (String → Option String))
    (ua : String) (ttl : Nat) (url body : String) (f : String → Option String) :
    (domainOf url = "" →
      is_allowed domainOf canFetch cache fetch ua ttl url = (true, []))
    ∧ (domainOf url ≠ "" → cache (robots_cache_key (domainOf url)) = some body →
        is_allowed domainOf canFetch cache fetch ua ttl url = (canFetch body ua url, []))
    ∧ (domainOf url ≠ "" → cache (robots_cache_key (domainOf url)) = none →
        fetch = some f → f (domainOf url) = none →
        is_allowed domainOf canFetch cache fetch ua ttl url = (true, [])) := by
  refine ⟨fun h => by simp [is_allowed, h], fun hd hc => ?_, fun hd hc hf hn => ?_⟩
  · simp [is_allowed, hd, hc]
  · simp [is_allowed, hd, hc, hf, hn]

/-- C8, instantiated: an empty domain; a cache hit whose body disallows
the URL's path (parser verdict false); and a miss with an absent fetcher
answer. -/
theorem claim_C8_witness :
    is_allowed (fun _ => "") (fun _ _ _ => false) (fun _ => none) none
        "OttoBot/1.0" 86400 "not-a-url" = (true, [])
    ∧ is_allowed (fun _ => "example.com") (fun _ _ _ => false)
        (fun k => if k = "robots:example.com"
          then some "User-agent: *\nDisallow: /private/" else none)
        none "OttoBot/1.0" 86400 "https://example.com/private/x" = (false, [])
    ∧ is_allowed (fun _ => "example.com") (fun _ _ _ => false) (fun _ => none)
        (some fun _ => none) "OttoBot/1.0" 86400 "https://example.com/a" = (true, []) :=
  ⟨(claim_C8 (fun _ => "") (fun _ _ _ => false) (fun _ => none) none
      "OttoBot/1.0" 86400 "not-a-url" "" (fun _ => none)).1 rfl,
   (claim_C8 (fun _ => "example.com") (fun _ _ _ => false)
      (fun k => if k = "robots:example.com"
        then some "User-agent: *\nDisallow: /private/" else none)
      none "OttoBot/1.0" 86400 "https://example.com/private/x"
      "User-agent: *\nDisallow: /private/" (fun _ => none)).2.1
      (by decide) (by decide),
   (claim_C8 (fun _ => "example.com") (fun _ _ _ => false) (fun _ => none)
      (some fun _ => none) "OttoBot/1.0" 86400 "https://example.com/a" ""
      (fun _ => none)).2.2 (by decide) rfl rfl rfl⟩

/-- Dropping the non-string entries first does not change `load_seeds`. -/
theorem load_seeds_filter_str (es : List YamlEntry) :
    load_seeds (SeedDoc.seedsList es) =
      load_seeds (SeedDoc.seedsList (es.filter fun e =>
        match e with
        | YamlEntry.str _ => true
        | YamlEntry.nonStr => false)) := by
  induction es with
  | nil => rfl
  | cons e t ih =>
    simp only [load_seeds] at ih ⊢
    cases e with
    | str s =>
      by_cases hs : s = "" <;>
        simp [List.filter_cons, List.filterMap_cons, hs, ih]
    | nonStr =>
      simpa [List.filter_cons, List.filterMap_cons] using ih

/-- `enqueue_seeds` in closed form: it appends exactly
`min |seeds| (max_queue_size − |queue|)` seeds and reports that count. -/
theorem enqueue_seeds_eq (maxQueueSize : Nat) :
    ∀ (seeds queue : List String),
      enqueue_seeds maxQueueSize queue seeds =
        (queue ++ seeds.take (min seeds.length (maxQueueSize - queue.length)),
         min seeds.length (maxQueueSize - queue.length)) := by
  intro seeds
  induction seeds with
  | nil => intro queue; simp [enqueue_seeds]
  | cons u rest ih =>
    intro queue
    by_cases h : maxQueueSize ≤ queue.length
    · have h0 : maxQueueSize - queue.length = 0 := by omega
      simp [enqueue_seeds, h, h0]
    · have hk : min (rest.length + 1) (maxQueueSize - queue.length)
          = min rest.length (maxQueueSize - (queue.length + 1)) + 1 := by omega
      rw [enqueue_seeds, if_neg h, ih (queue ++ [u])]
      simp [List.length_append, hk, List.append_assoc]

/-- C9: `load_seeds` yields `[]` for a missing or unparseable seed file;
for a parsed document it drops every non-string entry and each URL it
keeps is a whitespace-stripped string entry; and `enqueue_seeds` stops as
soon as the output queue length reaches `max_queue_size`, returning the
number of seeds actually enqueued. -/
theorem claim_C9 (es : List YamlEntry) (maxQueueSize : Nat) (queue seeds : List String) :
    load_seeds SeedDoc.missing = []
    ∧ load_seeds SeedDoc.unparseable = []
    ∧ load_seeds (SeedDoc.seedsList es) =
        load_seeds (SeedDoc.seedsList (es.filter fun e =>
          match e with
          | YamlEntry.str _ => true
          | YamlEntry.nonStr => false))
    ∧ (∀ x ∈ load_seeds (SeedDoc.seedsList es), ∃ s, YamlEntry.str s ∈ es ∧ x = strip s)
    ∧ enqueue_seeds maxQueueSize queue seeds =
        (queue ++ seeds.take (min seeds.length (maxQueueSize - queue.length)),
         min seeds.length (maxQueueSize - queue.length)) := by
  refine ⟨rfl, rfl, load_seeds_filter_str es, ?_, enqueue_seeds_eq maxQueueSize seeds queue⟩
  intro x hx
  simp only [load_seeds, List.mem_filterMap] at hx
  obtain ⟨e, he, hge⟩ := hx
  cases e with
  | nonStr => simp at hge
  | str s =>
    by_cases hs : s = ""
    · subst hs; simp at hge
    · simp only [if_neg hs, Option.some.injEq] at hge
      exact ⟨s, he, hge.symm⟩

/-- C9, instantiated: a seeds list with surrounding whitespace, a
non-string entry and an empty string, and an enqueue run that stops after
two of four seeds when the queue reaches its limit of 5. -/
theorem claim_C9_witness :
    load_seeds SeedDoc.missing = []
    ∧ load_seeds SeedDoc.unparseable = []
    ∧ (∃ s, YamlEntry.str s ∈
        [YamlEntry.str " https://a.com ", YamlEntry.nonStr, YamlEntry.str ""]
        ∧ "https://a.com" = strip s)
    ∧ enqueue_seeds 5 ["x", "y", "z"] ["a", "b", "c", "d"] =
        (["x", "y", "z", "a", "b"], 2) := by
  have H := claim_C9 [YamlEntry.str " https://a.com ", YamlEntry.nonStr, YamlEntry.str ""]
    5 ["x", "y", "z"] ["a", "b", "c", "d"]
  refine ⟨H.1, H.2.1, H.2.2.2.1 "https://a.com" (by decide), ?_⟩
  have h5 := H.2.2.2.2
  simpa using h5

end Otto
